import Mathlib

/-!
Verification of the scene composition and rendering state model of
te-studio-poc (src/pages/index.js), as a shallow embedding in Lean.

JS floating-point numbers of the relevant code paths are modelled by exact
rationals (every constant involved is a small decimal, and the claims are
about exact arithmetic relations), JS objects by ordered key/value lists
with distinct keys, and a thrown TypeError by an Option-valued result.
-/

set_option maxRecDepth 8000

namespace TEStudio

/-- A 3D coordinate, modelling a JS array of three floats with exact
rationals. -/
structure Triple where
  x : ℚ
  y : ℚ
  z : ℚ
  deriving DecidableEq

/-- Models the constant normalScale = 1.5 of src/pages/index.js. -/
def normalScale : ℚ := 3 / 2

/-- Models the constant skipLeds = 10. The code tests skipLeds !== false
before using it, so the value is an optional natural, none standing for
the JS literal false. -/
def skipLeds : Option ℕ := some 10

/-- Models the constant maxPerPanel = 3000. -/
def maxPerPanel : ℕ := 3000

/-- Models the constant maxPanels = 200. -/
def maxPanels : ℕ := 200

/-- Truncation toward zero of a rational: the integer part used by the JS
remainder operator. -/
def jsTrunc (q : ℚ) : ℤ := if 0 ≤ q then ⌊q⌋ else -⌊-q⌋

/-- The JS remainder operator on rationals. -/
def jsMod (x y : ℚ) : ℚ := x - y * (jsTrunc (x / y) : ℚ)

/-- The per-frame z position of the first terrain mesh, from the Landscape
component: terrain1Ref.current.position.z = (elapsedTime * 0.15) % 2. -/
def terrainSlot0 (t : ℚ) : ℚ := jsMod (t * (15 / 100)) 2

/-- The per-frame z position of the second terrain mesh:
terrain2Ref.current.position.z = ((elapsedTime * 0.15) % 2) - 2. -/
def terrainSlot1 (t : ℚ) : ℚ := terrainSlot0 t - 2

/-- The led position transform of the Panel component:
x = ledPos[2]*normalScale * -1 + .7, y = ledPos[1]*normalScale,
z = ledPos[0]*normalScale * -1 + 5. -/
def transformLed (p : Triple) : Triple :=
  ⟨p.z * normalScale * (-1) + 7 / 10,
   p.y * normalScale,
   p.x * normalScale * (-1) + 5⟩

/-- A panel or edge record of the dataset. leds = none models a malformed
record lacking its leds coordinate array (edge records carry no meaningful
id; the field is simply unused for them, as in the code). -/
structure PanelRec where
  id : String
  leds : Option (List Triple)
  deriving DecidableEq

/-- The dataset shape consumed by the Panels component. -/
structure Dataset where
  panels : List PanelRec
  edges : List PanelRec
  deriving DecidableEq

/-- The skip test of the Panel component:
skipLeds !== false && i % skipLeds != 0. -/
def skipCheck (sk : Option ℕ) (i : ℕ) : Bool :=
  match sk with
  | some k => decide (i % k ≠ 0)
  | none => false

/-- The body of panel.leds.map((ledPos, i) => ...) in the Panel component:
return early (emit nothing) when i > mpp, return early when the skip test
fires, otherwise emit the transformed position. The index argument mirrors
the map callback index. -/
def sampleLedsAux (mpp : ℕ) (sk : Option ℕ) : ℕ → List Triple → List Triple
  | _, [] => []
  | i, p :: rest =>
    if i > mpp then sampleLedsAux mpp sk (i + 1) rest
    else if skipCheck sk i then sampleLedsAux mpp sk (i + 1) rest
    else transformLed p :: sampleLedsAux mpp sk (i + 1) rest

/-- The points emitted by the Panel component for one leds array. -/
def sampleLeds (mpp : ℕ) (sk : Option ℕ) (leds : List Triple) : List Triple :=
  sampleLedsAux mpp sk 0 leds

/-- The Panel component applied to one record: mapping over a missing leds
array throws a TypeError, modelled by none. -/
def samplePanelRec (mpp : ℕ) (sk : Option ℕ) (r : PanelRec) : Option (List Triple) :=
  r.leds.map (sampleLeds mpp sk)

/-- The two color parameters held under the colors key of the selection
state. -/
structure Colors where
  primary : String
  edge : String
  deriving DecidableEq

/-- A value stored in the selected object: panel entries are booleans, the
colors entry is a record of two color strings. -/
inductive JsVal where
  | bool (b : Bool)
  | colorsObj (c : Colors)
  deriving DecidableEq

/-- The selected React state: a JS object, i.e. an ordered list of
key/value pairs (reachable states have distinct keys). -/
abbrev JsObj := List (String × JsVal)

/-- JS truthiness of reading a possibly absent object property. -/
def truthy : Option JsVal → Bool
  | none => false
  | some (JsVal.bool b) => b
  | some (JsVal.colorsObj _) => true

/-- Property read on a JS object: the value at the first matching key. -/
def lookupJs : JsObj → String → Option JsVal
  | [], _ => none
  | kv :: rest, k => if kv.1 == k then some kv.2 else lookupJs rest k

/-- Whether a key is present in the object. -/
def containsKey (o : JsObj) (k : String) : Bool := o.any (fun kv => kv.1 == k)

/-- JS spread update with a computed key: replaces the value in place when
the key exists, otherwise appends the new entry. -/
def objSet (o : JsObj) (k : String) (v : JsVal) : JsObj :=
  if containsKey o k then o.map (fun kv => if kv.1 == k then (k, v) else kv)
  else o ++ [(k, v)]

/-- The literal key under which the color record is stored. -/
def keyColors : String := "colors"

/-- Reading selected.colors; in every reachable state the key holds a color
record. The junk default stands for the undefined read of unreachable
states. -/
def getColors (o : JsObj) : Colors :=
  match lookupJs o keyColors with
  | some (JsVal.colorsObj c) => c
  | _ => ⟨"", ""⟩

/-- Which color field an update targets (the two call sites pass the fixed
strings primary and edge). -/
inductive Which where
  | primary
  | edge
  deriving DecidableEq

/-- The inner spread of updateColor: replace one field of the color
record. -/
def Colors.set (c : Colors) : Which → String → Colors
  | Which.primary, v => ⟨v, c.edge⟩
  | Which.edge, v => ⟨c.primary, v⟩

/-- The initial selection state of the Home component:
useState with colors primary #e84971 and edge #39f5e6. -/
def initSel : JsObj := [(keyColors, JsVal.colorsObj ⟨"#e84971", "#39f5e6"⟩)]

/-- The checkbox onClick of Controls:
setSelected with selected spread plus [panel.id]: !selected[panel.id]. -/
def toggleSel (o : JsObj) (id : String) : JsObj :=
  objSet o id (JsVal.bool (!truthy (lookupJs o id)))

/-- The Clear button of Controls: setSelected keeping only colors. -/
def clearSel (o : JsObj) : JsObj := [(keyColors, JsVal.colorsObj (getColors o))]

/-- updateColor of Controls: spread of selected with colors replaced by the
spread of selected.colors with one field replaced. -/
def setColorSel (o : JsObj) (w : Which) (v : String) : JsObj :=
  objSet o keyColors (JsVal.colorsObj ((getColors o).set w v))

/-- The entries of selected other than the colors key: the enabled-panel
map of the specification's data model. -/
def enabledEntries (o : JsObj) : JsObj := o.filter (fun kv => !(kv.1 == keyColors))

/-- A selection object carrying exactly one colors entry; every state
reachable from initSel by toggleSel, clearSel and setColorSel satisfies
this. -/
abbrev WFSel (o : JsObj) : Prop := o.length = (enabledEntries o).length + 1

/-- The selection filter of the Panels component, as written:
skip a panel when Object.keys(selected).length > 1 && !!!selected[panel.id],
include it otherwise. -/
def selVisible (o : JsObj) (id : String) : Bool :=
  !(decide (o.length > 1) && !truthy (lookupJs o id))

/-- The cap test of the Panels component applied to both the panels and the
edges map: skip when i > maxPanels. -/
def capOk (i : ℕ) : Bool := !(decide (i > maxPanels))

/-- The full per-record decision of the panels map: the selection filter,
then the cap test. -/
def panelIncluded (o : JsObj) (r : PanelRec) (i : ℕ) : Bool :=
  selVisible o r.id && capOk i

/-- teModel.panels.map((panel, i) => ...) of the Panels component: the
records for which a Panel element is emitted, in order. -/
def includedPanelsAux (o : JsObj) : ℕ → List PanelRec → List PanelRec
  | _, [] => []
  | i, r :: rest =>
    if panelIncluded o r i then r :: includedPanelsAux o (i + 1) rest
    else includedPanelsAux o (i + 1) rest

/-- The panel records rendered by the Panels component. -/
def includedPanels (o : JsObj) (panels : List PanelRec) : List PanelRec :=
  includedPanelsAux o 0 panels

/-- teModel.edges.map((edge, i) => ...) of the Panels component: only the
cap test, no selection filter. -/
def includedEdgesAux : ℕ → List PanelRec → List PanelRec
  | _, [] => []
  | i, r :: rest =>
    if capOk i then r :: includedEdgesAux (i + 1) rest
    else includedEdgesAux (i + 1) rest

/-- The edge records rendered by the Panels component. -/
def includedEdges (edges : List PanelRec) : List PanelRec := includedEdgesAux 0 edges

/-- Mapping a fallible function over a list, failing as soon as one element
fails: the propagation of a render-time exception. -/
def optMapList {α β : Type _} (f : α → Option β) : List α → Option (List β)
  | [] => some []
  | a :: l =>
    match f a, optMapList f l with
    | some b, some bs => some (b :: bs)
    | _, _ => none

/-- The Panels component end to end: the sampled points of every included
panel record (tagged with the record id) and of every included edge record;
none models the render aborting on a thrown TypeError. -/
def renderScene (mpp : ℕ) (sk : Option ℕ) (o : JsObj) (ds : Dataset) :
    Option (List (String × List Triple) × List (List Triple)) :=
  match optMapList (fun r => (samplePanelRec mpp sk r).map (fun pts => (r.id, pts)))
          (includedPanels o ds.panels),
        optMapList (samplePanelRec mpp sk) (includedEdges ds.edges) with
  | some ps, some es => some (ps, es)
  | _, _ => none

/-- The panel-visibility condition in the specification's words: a named
panel is visible iff the enabled map is empty or its entry is truthy.
Stated over the enabled-panel map alone, for comparison with the filter the
code computes over the whole selected object. -/
def specPanelVisible (o : JsObj) (id : String) : Bool :=
  (enabledEntries o).isEmpty || truthy (lookupJs (enabledEntries o) id)

/-- Concrete panel ids and colors used by witness instantiations. -/
def pid1 : String := "P1"

def pid2 : String := "P2"

def pid3 : String := "P3"

def pid4 : String := "P4"

def hexAbc : String := "#abcdef"

def hexFff : String := "#ffffff"

/-- The three-led dataset of the end-to-end check. -/
def leds5 : List Triple := [⟨0, 0, 0⟩, ⟨1, 1, 1⟩, ⟨2, 2, 2⟩]

/-- The end-to-end dataset with a single panel P1 of three leds. -/
def ds5 : Dataset := ⟨[⟨pid1, some leds5⟩], []⟩

/-- The transformed images of all three coordinates of leds5. -/
def pts5 : List Triple := [⟨7 / 10, 0, 5⟩, ⟨-4 / 5, 3 / 2, 7 / 2⟩, ⟨-23 / 10, 3, 2⟩]

/-- A dataset whose single panel record lacks its leds array. -/
def ds6 : Dataset := ⟨[⟨pid1, none⟩], []⟩

/-- 202 identical one-record panels, two more than maxPanels. -/
def manyPanels : List PanelRec := List.replicate 202 ⟨pid1, some []⟩

/-! ## Helper lemmas about the JS object model -/

theorem containsKey_cons (kv : String × JsVal) (rest : JsObj) (j : String) :
    containsKey (kv :: rest) j = ((kv.1 == j) || containsKey rest j) := by
  simp [containsKey]

theorem containsKey_append (o₁ o₂ : JsObj) (j : String) :
    containsKey (o₁ ++ o₂) j = (containsKey o₁ j || containsKey o₂ j) := by
  simp [containsKey]

theorem lookupJs_append (o₁ o₂ : JsObj) (k : String) :
    lookupJs (o₁ ++ o₂) k =
      match lookupJs o₁ k with
      | some v => some v
      | none => lookupJs o₂ k := by
  induction o₁ with
  | nil => simp [lookupJs]
  | cons kv rest ih =>
    by_cases h : (kv.1 == k) = true
    · simp [lookupJs, h]
    · simp only [List.cons_append, lookupJs, if_neg h]
      exact ih

theorem lookupJs_eq_none_of_not_contains (o : JsObj) (k : String)
    (h : containsKey o k = false) : lookupJs o k = none := by
  induction o with
  | nil => rfl
  | cons kv rest ih =>
    rw [containsKey_cons, Bool.or_eq_false_iff] at h
    have hn : ¬((kv.1 == k) = true) := by simp [h.1]
    simp only [lookupJs]
    rw [if_neg hn]
    exact ih h.2

theorem lookupJs_replace_self (o : JsObj) (k : String) (v : JsVal)
    (hc : containsKey o k = true) :
    lookupJs (o.map (fun kv => if kv.1 == k then (k, v) else kv)) k = some v := by
  induction o with
  | nil => simp [containsKey] at hc
  | cons kv rest ih =>
    by_cases h : (kv.1 == k) = true
    · rw [List.map_cons, if_pos h]
      simp [lookupJs]
    · have hc' : containsKey rest k = true := by
        rw [containsKey_cons, Bool.or_eq_true] at hc
        rcases hc with hc | hc
        · exact absurd hc h
        · exact hc
      rw [List.map_cons, if_neg h]
      simp only [lookupJs, if_neg h]
      exact ih hc'

theorem lookupJs_objSet_self (o : JsObj) (k : String) (v : JsVal) :
    lookupJs (objSet o k v) k = some v := by
  unfold objSet
  by_cases hc : containsKey o k = true
  · rw [if_pos hc]
    exact lookupJs_replace_self o k v hc
  · have hc' : containsKey o k = false := by
      revert hc; cases containsKey o k <;> simp
    rw [if_neg (by simp [hc'])]
    rw [lookupJs_append, lookupJs_eq_none_of_not_contains o k hc']
    simp [lookupJs]

theorem lookupJs_replace_ne (o : JsObj) (k : String) (v : JsVal) (id : String)
    (h : id ≠ k) :
    lookupJs (o.map (fun kv => if kv.1 == k then (k, v) else kv)) id = lookupJs o id := by
  induction o with
  | nil => rfl
  | cons kv rest ih =>
    by_cases hk : (kv.1 == k) = true
    · have hk' : kv.1 = k := eq_of_beq hk
      have h1 : (k == id) = false := beq_eq_false_iff_ne.mpr fun e => h e.symm
      have h2 : (kv.1 == id) = false := by rw [hk']; exact h1
      rw [List.map_cons, if_pos hk]
      have hn1 : ¬((k == id) = true) := by simp [h1]
      have hn2 : ¬((kv.1 == id) = true) := by simp [h2]
      simp only [lookupJs]
      rw [if_neg hn1, if_neg hn2]
      exact ih
    · rw [List.map_cons, if_neg hk]
      by_cases hki : (kv.1 == id) = true
      · simp [lookupJs, hki]
      · simp only [lookupJs, if_neg hki]
        exact ih

theorem lookupJs_objSet_ne (o : JsObj) (k : String) (v : JsVal) (id : String)
    (h : id ≠ k) : lookupJs (objSet o k v) id = lookupJs o id := by
  unfold objSet
  by_cases hc : containsKey o k = true
  · rw [if_pos hc]
    exact lookupJs_replace_ne o k v id h
  · rw [if_neg (by simp [hc])]
    rw [lookupJs_append]
    have h1 : (k == id) = false := beq_eq_false_iff_ne.mpr fun e => h e.symm
    cases hlk : lookupJs o id <;> simp [lookupJs, h1]

theorem containsKey_replace_mono (o : JsObj) (k : String) (v : JsVal) (j : String)
    (h : containsKey o j = true) :
    containsKey (o.map (fun kv => if kv.1 == k then (k, v) else kv)) j = true := by
  induction o with
  | nil => simp [containsKey] at h
  | cons kv rest ih =>
    rw [containsKey_cons, Bool.or_eq_true] at h
    rw [List.map_cons, containsKey_cons, Bool.or_eq_true]
    rcases h with h1 | h1
    · left
      by_cases hkk : (kv.1 == k) = true
      · rw [if_pos hkk]
        have hj : k = j := by rw [← eq_of_beq hkk]; exact eq_of_beq h1
        rw [show ((k, v) : String × JsVal).1 = k from rfl, hj]
        exact beq_self_eq_true j
      · rw [if_neg hkk]
        exact h1
    · right
      exact ih h1

theorem containsKey_objSet (o : JsObj) (k : String) (v : JsVal) (j : String)
    (h : containsKey o j = true) : containsKey (objSet o k v) j = true := by
  unfold objSet
  by_cases hc : containsKey o k = true
  · rw [if_pos hc]
    exact containsKey_replace_mono o k v j h
  · rw [if_neg (by simp [hc])]
    rw [containsKey_append, Bool.or_eq_true]
    left
    exact h

theorem containsKey_objSet_self (o : JsObj) (k : String) (v : JsVal) :
    containsKey (objSet o k v) k = true := by
  unfold objSet
  by_cases hc : containsKey o k = true
  · rw [if_pos hc]
    induction o with
    | nil => simp [containsKey] at hc
    | cons kv rest ih =>
      rw [List.map_cons, containsKey_cons, Bool.or_eq_true]
      by_cases hkk : (kv.1 == k) = true
      · left
        rw [if_pos hkk]
        exact beq_self_eq_true k
      · right
        have hc2 : containsKey rest k = true := by
          rw [containsKey_cons, Bool.or_eq_true] at hc
          rcases hc with hc | hc
          · exact absurd hc hkk
          · exact hc
        exact ih hc2
  · rw [if_neg (by simp [hc])]
    rw [containsKey_append, Bool.or_eq_true]
    right
    simp [containsKey]

theorem length_objSet (o : JsObj) (k : String) (v : JsVal)
    (hc : containsKey o k = true) : (objSet o k v).length = o.length := by
  unfold objSet
  rw [if_pos hc]
  simp

theorem getColors_objSet (o : JsObj) (c : Colors) :
    getColors (objSet o keyColors (JsVal.colorsObj c)) = c := by
  unfold getColors
  rw [lookupJs_objSet_self]

theorem enabledEntries_clearSel (o : JsObj) : enabledEntries (clearSel o) = [] := by
  simp [enabledEntries, clearSel]

theorem getColors_clearSel (o : JsObj) : getColors (clearSel o) = getColors o := by
  simp [getColors, clearSel, lookupJs]

theorem lookupJs_enabledEntries (o : JsObj) (id : String) (h : id ≠ keyColors) :
    lookupJs (enabledEntries o) id = lookupJs o id := by
  induction o with
  | nil => rfl
  | cons kv rest ih =>
    by_cases hk : (kv.1 == keyColors) = true
    · have hkc : kv.1 = keyColors := eq_of_beq hk
      have h2 : (kv.1 == id) = false := by
        rw [hkc]; exact beq_eq_false_iff_ne.mpr fun e => h e.symm
      rw [show enabledEntries (kv :: rest) = enabledEntries rest from by
        simp [enabledEntries, List.filter_cons, hk]]
      rw [ih]
      simp [lookupJs, h2]
    · rw [show enabledEntries (kv :: rest) = kv :: enabledEntries rest from by
        simp [enabledEntries, List.filter_cons, hk]]
      by_cases hki : (kv.1 == id) = true
      · simp [lookupJs, hki]
      · simp only [lookupJs, if_neg hki]
        exact ih

theorem contains_colors_of_WF (o : JsObj) (h : WFSel o) :
    containsKey o keyColors = true := by
  by_contra hc
  have hc' : containsKey o keyColors = false := by
    revert hc; cases containsKey o keyColors <;> simp
  have hself : enabledEntries o = o := by
    apply List.filter_eq_self.mpr
    intro kv hkv
    simp only [containsKey] at hc'
    rw [List.any_eq_false] at hc'
    simpa using hc' kv hkv
  have h' : o.length = (enabledEntries o).length + 1 := h
  rw [hself] at h'
  omega

/-! ## Helper lemmas about the sampler and the Panels maps -/

theorem sampleLedsAux_stop (mpp : ℕ) (sk : Option ℕ) :
    ∀ (l : List Triple) (i : ℕ), mpp < i → sampleLedsAux mpp sk i l = [] := by
  intro l
  induction l with
  | nil => intro i _; rfl
  | cons p rest ih =>
    intro i hi
    simp only [sampleLedsAux]
    rw [if_pos hi]
    exact ih (i + 1) (by omega)

theorem sampleLedsAux_length_le (mpp : ℕ) (sk : Option ℕ) :
    ∀ (l : List Triple) (i : ℕ), (sampleLedsAux mpp sk i l).length ≤ mpp + 1 - i := by
  intro l
  induction l with
  | nil => intro i; simp [sampleLedsAux]
  | cons p rest ih =>
    intro i
    by_cases hi : i > mpp
    · rw [sampleLedsAux_stop mpp sk _ i hi]
      simp
    · simp only [sampleLedsAux, if_neg hi]
      by_cases hs : skipCheck sk i = true
      · rw [if_pos hs]
        have := ih (i + 1)
        omega
      · rw [if_neg hs]
        simp only [List.length_cons]
        have := ih (i + 1)
        omega

theorem sampleLedsAux_sublist (mpp : ℕ) (sk : Option ℕ) :
    ∀ (l : List Triple) (i : ℕ),
      List.Sublist (sampleLedsAux mpp sk i l) (l.map transformLed) := by
  intro l
  induction l with
  | nil => intro i; simp [sampleLedsAux]
  | cons p rest ih =>
    intro i
    simp only [sampleLedsAux, List.map_cons]
    by_cases hi : i > mpp
    · rw [if_pos hi]
      exact (ih (i + 1)).cons _
    · rw [if_neg hi]
      by_cases hs : skipCheck sk i = true
      · rw [if_pos hs]
        exact (ih (i + 1)).cons _
      · rw [if_neg hs]
        exact (ih (i + 1)).cons₂ _

theorem sampleLedsAux_none_eq (mpp : ℕ) :
    ∀ (l : List Triple) (i : ℕ),
      sampleLedsAux mpp none i l = (l.take (mpp + 1 - i)).map transformLed := by
  intro l
  induction l with
  | nil => intro i; simp [sampleLedsAux]
  | cons p rest ih =>
    intro i
    by_cases hi : i > mpp
    · rw [sampleLedsAux_stop mpp none _ i hi, show mpp + 1 - i = 0 from by omega]
      rfl
    · have hs : ¬(skipCheck none i = true) := by simp [skipCheck]
      simp only [sampleLedsAux, if_neg hi]
      rw [if_neg hs]
      rw [show mpp + 1 - i = (mpp - i) + 1 from by omega, List.take_succ_cons, List.map_cons]
      rw [ih (i + 1), show mpp + 1 - (i + 1) = mpp - i from by omega]

theorem sampleLedsAux_length_count (mpp k : ℕ) :
    ∀ (l : List Triple) (i : ℕ),
      (sampleLedsAux mpp (some k) i l).length
        = List.countP (fun d => decide (i + d ≤ mpp) && decide ((i + d) % k = 0))
            (List.range l.length) := by
  intro l
  induction l with
  | nil => intro i; simp [sampleLedsAux]
  | cons p rest ih =>
    intro i
    have hshift :
        ((fun d => decide (i + d ≤ mpp) && decide ((i + d) % k = 0)) ∘ Nat.succ)
          = (fun d => decide (i + 1 + d ≤ mpp) && decide ((i + 1 + d) % k = 0)) := by
      funext d
      have he : i + Nat.succ d = i + 1 + d := by omega
      simp only [Function.comp_apply, he]
    rw [List.length_cons, List.range_succ_eq_map, List.countP_cons, List.countP_map, hshift]
    by_cases hi : i > mpp
    · have hile : ¬(i ≤ mpp) := by omega
      have h0 : (decide (i + 0 ≤ mpp) && decide ((i + 0) % k = 0)) = false := by
        simp [hile]
      simp only [sampleLedsAux, if_pos hi]
      rw [ih (i + 1), h0]
      simp
    · by_cases hmod : i % k = 0
      · have hsc : ¬(skipCheck (some k) i = true) := by simp [skipCheck, hmod]
        have hile : i ≤ mpp := by omega
        have h0 : (decide (i + 0 ≤ mpp) && decide ((i + 0) % k = 0)) = true := by
          simp [hile, hmod]
        simp only [sampleLedsAux, if_neg hi, if_neg hsc, List.length_cons]
        rw [ih (i + 1), h0]
        simp
      · have hsc : skipCheck (some k) i = true := by simp [skipCheck, hmod]
        have h0 : (decide (i + 0 ≤ mpp) && decide ((i + 0) % k = 0)) = false := by
          simp [hmod]
        simp only [sampleLedsAux, if_neg hi, if_pos hsc]
        rw [ih (i + 1), h0]
        simp

theorem ceil_div_step (k n : ℕ) (hk : 0 < k) :
    (n + k) / k = (n + k - 1) / k + (if n % k = 0 then 1 else 0) := by
  have h1 : n + k = (n + k - 1) + 1 := by omega
  rw [h1, Nat.succ_div]
  congr 1
  have h2 : n + k - 1 + 1 = n + k := by omega
  rw [h2]
  simp [Nat.dvd_iff_mod_eq_zero, Nat.add_mod_right]

theorem countP_range_cap (mpp k : ℕ) (hk : 0 < k) :
    ∀ n : ℕ,
      List.countP (fun d => decide (d ≤ mpp) && decide (d % k = 0)) (List.range n)
        = (min n (mpp + 1) + k - 1) / k := by
  intro n
  induction n with
  | zero =>
    simp only [List.range_zero, List.countP_nil]
    rw [show min 0 (mpp + 1) = 0 from by omega, show 0 + k - 1 = k - 1 from by omega]
    exact (Nat.div_eq_of_lt (by omega)).symm
  | succ n ih =>
    rw [List.range_succ, List.countP_append, ih]
    by_cases hn : n ≤ mpp
    · have hmin1 : min (n + 1) (mpp + 1) = n + 1 := by omega
      have hmin2 : min n (mpp + 1) = n := by omega
      have hcnt : List.countP (fun d => decide (d ≤ mpp) && decide (d % k = 0)) [n]
          = if n % k = 0 then 1 else 0 := by
        simp [List.countP_cons, hn]
      rw [hmin1, hmin2, hcnt, show n + 1 + k - 1 = n + k from by omega,
        ceil_div_step k n hk]
    · have hmin1 : min (n + 1) (mpp + 1) = mpp + 1 := by omega
      have hmin2 : min n (mpp + 1) = mpp + 1 := by omega
      have hcnt : List.countP (fun d => decide (d ≤ mpp) && decide (d % k = 0)) [n] = 0 := by
        simp [List.countP_cons, hn]
      rw [hmin1, hmin2, hcnt]
      simp

theorem sampleLeds_length_formula (mpp k : ℕ) (leds : List Triple) (hk : 0 < k) :
    (sampleLeds mpp (some k) leds).length = (min leds.length (mpp + 1) + k - 1) / k := by
  unfold sampleLeds
  rw [sampleLedsAux_length_count mpp k leds 0]
  rw [show (fun d => decide (0 + d ≤ mpp) && decide ((0 + d) % k = 0))
      = (fun d => decide (d ≤ mpp) && decide (d % k = 0)) from by
    funext d
    simp]
  exact countP_range_cap mpp k hk leds.length

theorem includedPanelsAux_stop (o : JsObj) :
    ∀ (l : List PanelRec) (i : ℕ), maxPanels < i → includedPanelsAux o i l = [] := by
  intro l
  induction l with
  | nil => intro i _; rfl
  | cons r rest ih =>
    intro i hi
    have hinc : panelIncluded o r i = false := by
      unfold panelIncluded capOk
      rw [show (decide (i > maxPanels)) = true from by simpa using hi]
      simp
    simp only [includedPanelsAux]
    rw [if_neg (by simp [hinc])]
    exact ih (i + 1) (by omega)

theorem includedPanelsAux_eq_filter_take (o : JsObj) :
    ∀ (l : List PanelRec) (i : ℕ),
      includedPanelsAux o i l
        = (l.take (maxPanels + 1 - i)).filter (fun r => selVisible o r.id) := by
  intro l
  induction l with
  | nil => intro i; simp [includedPanelsAux]
  | cons r rest ih =>
    intro i
    by_cases hi : maxPanels < i
    · rw [includedPanelsAux_stop o _ i hi, show maxPanels + 1 - i = 0 from by omega]
      rfl
    · have hcap : capOk i = true := by
        unfold capOk
        rw [decide_eq_false hi]
        rfl
      have hpi : panelIncluded o r i = selVisible o r.id := by
        unfold panelIncluded
        rw [hcap, Bool.and_true]
      rw [show maxPanels + 1 - i = (maxPanels - i) + 1 from by omega, List.take_succ_cons,
        List.filter_cons]
      simp only [includedPanelsAux, hpi]
      rw [ih (i + 1), show maxPanels + 1 - (i + 1) = maxPanels - i from by omega]

theorem includedEdgesAux_stop :
    ∀ (l : List PanelRec) (i : ℕ), maxPanels < i → includedEdgesAux i l = [] := by
  intro l
  induction l with
  | nil => intro i _; rfl
  | cons r rest ih =>
    intro i hi
    have hcap : capOk i = false := by
      unfold capOk
      rw [show (decide (i > maxPanels)) = true from by simpa using hi]
      rfl
    simp only [includedEdgesAux]
    rw [if_neg (by simp [hcap])]
    exact ih (i + 1) (by omega)

theorem includedEdgesAux_eq_take :
    ∀ (l : List PanelRec) (i : ℕ), includedEdgesAux i l = l.take (maxPanels + 1 - i) := by
  intro l
  induction l with
  | nil => intro i; simp [includedEdgesAux]
  | cons r rest ih =>
    intro i
    by_cases hi : maxPanels < i
    · rw [includedEdgesAux_stop _ i hi, show maxPanels + 1 - i = 0 from by omega]
      rfl
    · have hcap : capOk i = true := by
        unfold capOk
        rw [decide_eq_false hi]
        rfl
      rw [show maxPanels + 1 - i = (maxPanels - i) + 1 from by omega, List.take_succ_cons]
      simp only [includedEdgesAux]
      rw [if_pos hcap, ih (i + 1), show maxPanels + 1 - (i + 1) = maxPanels - i from by omega]

theorem optMapList_eq_none {α β : Type _} (f : α → Option β) (l : List α) (a : α)
    (ha : a ∈ l) (hfa : f a = none) : optMapList f l = none := by
  induction l with
  | nil => simp at ha
  | cons b rest ih =>
    rcases List.mem_cons.mp ha with h | h
    · subst h
      cases hrest : optMapList f rest <;> simp [optMapList, hfa, hrest]
    · have hih := ih h
      cases hfb : f b
      · simp [optMapList, hfb]
      · simp [optMapList, hfb, hih]

/-! ## Remaining helper lemmas for the selection claims -/

theorem length_toggle_of_contains (o : JsObj) (id : String)
    (h : containsKey o id = true) : (toggleSel o id).length = o.length := by
  unfold toggleSel
  exact length_objSet o id _ h

theorem containsKey_foldl_toggle (l : List String) :
    ∀ (s : JsObj) (j : String), containsKey s j = true →
      containsKey (List.foldl toggleSel s l) j = true := by
  induction l with
  | nil =>
    intro s j h
    simpa using h
  | cons a rest ih =>
    intro s j h
    rw [List.foldl_cons]
    exact ih (toggleSel s a) j (containsKey_objSet s a _ j h)

/-! ## Claim theorems -/

/-- C1, counterexample: the claim asserts both per-frame TerrainLoop
z-offsets lie in [-2, 0); at elapsed time t = 10 the first slot is
(10 * 0.15) mod 2 = 3/2, which is not negative, refuting the interval for
slot 0. -/
theorem c1_counterexample : terrainSlot0 10 = 3 / 2 ∧ ¬(terrainSlot0 10 < 0) := by
  have h : terrainSlot0 10 = 3 / 2 := by
    have h34 : ((10 : ℚ) * (15 / 100)) / 2 = 3 / 4 := by norm_num
    have hfl : ⌊(3 / 4 : ℚ)⌋ = 0 := by
      rw [Int.floor_eq_zero_iff]
      constructor <;> norm_num
    unfold terrainSlot0 jsMod jsTrunc
    rw [h34, if_pos (by norm_num : (0 : ℚ) ≤ 3 / 4), hfl]
    norm_num
  refine ⟨h, ?_⟩
  rw [h]
  norm_num

/-- C1, amended: for every elapsed time t ≥ 0 the two TerrainLoop z-offsets
differ by exactly 2, slot 0 = (t * 0.15) mod 2 lies in [0, 2), and
slot 1 = slot 0 - 2 lies in [-2, 0). (The original claim put both slots in
[-2, 0); only slot 1 lies there.) -/
theorem c1_amended (t : ℚ) (ht : 0 ≤ t) :
    terrainSlot0 t - terrainSlot1 t = 2 ∧
    (0 ≤ terrainSlot0 t ∧ terrainSlot0 t < 2) ∧
    (-2 ≤ terrainSlot1 t ∧ terrainSlot1 t < 0) := by
  have hx : (0 : ℚ) ≤ t * (15 / 100) := mul_nonneg ht (by norm_num)
  have hx2 : (0 : ℚ) ≤ t * (15 / 100) / 2 := div_nonneg hx (by norm_num)
  have htr : jsTrunc (t * (15 / 100) / 2) = ⌊t * (15 / 100) / 2⌋ := by
    unfold jsTrunc
    exact if_pos hx2
  have hs0 : terrainSlot0 t
      = t * (15 / 100) - 2 * ((⌊t * (15 / 100) / 2⌋ : ℤ) : ℚ) := by
    unfold terrainSlot0 jsMod
    rw [htr]
  have hfl : ((⌊t * (15 / 100) / 2⌋ : ℤ) : ℚ) ≤ t * (15 / 100) / 2 := Int.floor_le _
  have hfu : t * (15 / 100) / 2 < ((⌊t * (15 / 100) / 2⌋ : ℤ) : ℚ) + 1 :=
    Int.lt_floor_add_one _
  refine ⟨?_, ⟨?_, ?_⟩, ?_, ?_⟩
  · unfold terrainSlot1
    ring
  · rw [hs0]
    linarith
  · rw [hs0]
    linarith
  · unfold terrainSlot1
    rw [hs0]
    linarith
  · unfold terrainSlot1
    rw [hs0]
    linarith

/-- C1, witness of the amended theorem at t = 4. -/
theorem c1_amended_witness :
    terrainSlot0 4 - terrainSlot1 4 = 2 ∧
    (0 ≤ terrainSlot0 4 ∧ terrainSlot0 4 < 2) ∧
    (-2 ≤ terrainSlot1 4 ∧ terrainSlot1 4 < 0) :=
  c1_amended 4 (by norm_num)

/-- C7: every raw led coordinate (x, y, z) maps to render space by the
fixed affine transform renderX = -z*normalScale + 0.7,
renderY = y*normalScale, renderZ = -x*normalScale + 5, a pure function of
the input triple. -/
theorem c7_transform (x y z : ℚ) :
    transformLed ⟨x, y, z⟩
      = ⟨-z * normalScale + 7 / 10, y * normalScale, -x * normalScale + 5⟩ := by
  unfold transformLed
  simp only [Triple.mk.injEq]
  refine ⟨by ring, by ring, by ring⟩

/-- C2: over every well-formed selection state, the selection filter of the
Panels component equals the specification condition (enabled map empty, or
the panel entry truthy), edge records are always included up to the cap
regardless of selection, and a color update never changes the filter
decision. Panel ids are distinct from the literal key colors, under which
the selected object stores its color record. -/
theorem c2_selection_filter (o : JsObj) (id : String) (w : Which) (v : String)
    (edges : List PanelRec) (hwf : WFSel o) (hid : id ≠ keyColors) :
    selVisible o id = specPanelVisible o id ∧
    includedEdges edges = edges.take (maxPanels + 1) ∧
    selVisible (setColorSel o w v) id = selVisible o id := by
  refine ⟨?_, ?_, ?_⟩
  · unfold selVisible specPanelVisible
    rw [lookupJs_enabledEntries o id hid]
    have hlen : o.length = (enabledEntries o).length + 1 := hwf
    cases hE : enabledEntries o with
    | nil =>
      rw [hE] at hlen
      simp [hlen]
    | cons kv rest =>
      rw [hE] at hlen
      have hlen2 : o.length = rest.length + 2 := by
        rw [hlen, List.length_cons]
      have h1 : decide (o.length > 1) = true := decide_eq_true (by omega)
      rw [h1]
      simp
  · unfold includedEdges
    rw [includedEdgesAux_eq_take edges 0, Nat.sub_zero]
  · have hc : containsKey o keyColors = true := contains_colors_of_WF o hwf
    unfold selVisible setColorSel
    rw [length_objSet _ _ _ hc, lookupJs_objSet_ne _ _ _ _ hid]

/-- C2, witness at the initial selection state and panel id P1. -/
theorem c2_selection_filter_witness :
    selVisible initSel pid1 = specPanelVisible initSel pid1 ∧
    includedEdges [⟨pid2, some []⟩]
      = ([(⟨pid2, some []⟩ : PanelRec)]).take (maxPanels + 1) ∧
    selVisible (setColorSel initSel Which.primary hexFff) pid1
      = selVisible initSel pid1 :=
  c2_selection_filter initSel pid1 Which.primary hexFff [⟨pid2, some []⟩]
    (by decide) (by decide)

/-- C8: clear resets the enabled panel entries to empty and leaves the
colors unchanged; setColor replaces only the named color and leaves every
other entry unchanged; clear followed by setColor primary #abcdef yields an
empty enabled map with primary #abcdef; and the two operations commute. -/
theorem c8_selection_ops (o : JsObj) (w : Which) (v : String) (id : String)
    (hid : id ≠ keyColors) :
    enabledEntries (clearSel o) = [] ∧
    getColors (clearSel o) = getColors o ∧
    lookupJs (setColorSel o w v) id = lookupJs o id ∧
    getColors (setColorSel o w v) = (getColors o).set w v ∧
    enabledEntries (setColorSel (clearSel o) Which.primary hexAbc) = [] ∧
    getColors (setColorSel (clearSel o) Which.primary hexAbc)
      = ⟨hexAbc, (getColors o).edge⟩ ∧
    setColorSel (clearSel o) w v = clearSel (setColorSel o w v) := by
  have h3 : lookupJs (setColorSel o w v) id = lookupJs o id :=
    lookupJs_objSet_ne o keyColors _ id hid
  have h4 : ∀ (o' : JsObj) (w' : Which) (v' : String),
      getColors (setColorSel o' w' v') = (getColors o').set w' v' :=
    fun o' w' v' => getColors_objSet o' _
  refine ⟨enabledEntries_clearSel o, getColors_clearSel o, h3, h4 o w v, ?_, ?_, ?_⟩
  · simp [clearSel, setColorSel, objSet, containsKey, enabledEntries]
  · rw [h4 (clearSel o) Which.primary hexAbc, getColors_clearSel o]
    rfl
  · rw [show clearSel (setColorSel o w v)
        = [(keyColors, JsVal.colorsObj ((getColors o).set w v))] from by
      unfold clearSel
      rw [h4 o w v]]
    unfold setColorSel
    rw [getColors_clearSel o]
    unfold clearSel objSet
    rw [if_pos (by simp [containsKey])]
    simp

/-- C8, witness at the initial selection state. -/
theorem c8_selection_ops_witness :
    enabledEntries (clearSel initSel) = [] ∧
    getColors (clearSel initSel) = getColors initSel ∧
    lookupJs (setColorSel initSel Which.primary hexAbc) pid1 = lookupJs initSel pid1 ∧
    getColors (setColorSel initSel Which.primary hexAbc)
      = (getColors initSel).set Which.primary hexAbc ∧
    enabledEntries (setColorSel (clearSel initSel) Which.primary hexAbc) = [] ∧
    getColors (setColorSel (clearSel initSel) Which.primary hexAbc)
      = ⟨hexAbc, (getColors initSel).edge⟩ ∧
    setColorSel (clearSel initSel) Which.primary hexAbc
      = clearSel (setColorSel initSel Which.primary hexAbc) :=
  c8_selection_ops initSel Which.primary hexAbc pid1 (by decide)

/-- C9: a single toggle of an absent panel id creates the entry with value
true (absent reads as false), and toggling the same id twice restores the
truthiness of the entry in every state. -/
theorem c9_toggle (o : JsObj) (id : String) (h : lookupJs o id = none) :
    lookupJs (toggleSel o id) id = some (JsVal.bool true) ∧
    ∀ o₂ : JsObj, truthy (lookupJs (toggleSel (toggleSel o₂ id) id) id)
      = truthy (lookupJs o₂ id) := by
  constructor
  · have h1 : lookupJs (toggleSel o id) id
        = some (JsVal.bool (!truthy (lookupJs o id))) := lookupJs_objSet_self o id _
    rw [h1, h]
    rfl
  · intro o₂
    have h1 : lookupJs (toggleSel o₂ id) id
        = some (JsVal.bool (!truthy (lookupJs o₂ id))) := lookupJs_objSet_self o₂ id _
    have h2 : lookupJs (toggleSel (toggleSel o₂ id) id) id
        = some (JsVal.bool (!truthy (lookupJs (toggleSel o₂ id) id))) :=
      lookupJs_objSet_self (toggleSel o₂ id) id _
    rw [h2, h1]
    simp [truthy]

/-- C9, witness: toggling P1 from the initial state. -/
theorem c9_toggle_witness :
    lookupJs (toggleSel initSel pid1) pid1 = some (JsVal.bool true) ∧
    truthy (lookupJs (toggleSel (toggleSel initSel pid1) pid1) pid1)
      = truthy (lookupJs initSel pid1) :=
  ⟨(c9_toggle initSel pid1 (by decide)).1,
   (c9_toggle initSel pid1 (by decide)).2 initSel⟩

/-- C10: toggles never drop keys (a present key survives any toggle, hence
any toggle sequence); after a toggle-on/toggle-off cycle of a panel p from
the initial state its key persists with value false and the key count is 2,
so the selection filter is active: every panel whose entry is not truthy is
hidden, whereas in the initial state every record within the cap is
visible. -/
theorem c10_toggle_persistence (s : JsObj) (i j p : String) (l : List String)
    (r : PanelRec) (n : ℕ) (hj : containsKey s j = true) (hp : p ≠ keyColors)
    (hn : n ≤ maxPanels)
    (hq : truthy (lookupJs (toggleSel (toggleSel initSel p) p) r.id) = false) :
    containsKey (toggleSel s i) j = true ∧
    containsKey (List.foldl toggleSel (toggleSel s i) l) i = true ∧
    lookupJs (toggleSel (toggleSel initSel p) p) p = some (JsVal.bool false) ∧
    (toggleSel (toggleSel initSel p) p).length = 2 ∧
    panelIncluded initSel r n = true ∧
    panelIncluded (toggleSel (toggleSel initSel p) p) r n = false := by
  have hkp : (keyColors == p) = false := beq_eq_false_iff_ne.mpr fun e => hp e.symm
  have hlp : lookupJs initSel p = none := by
    simp [initSel, lookupJs, hkp]
  have hcp : containsKey initSel p = false := by
    simp [initSel, containsKey, hkp]
  have ht1 : toggleSel initSel p = initSel ++ [(p, JsVal.bool (!truthy (lookupJs initSel p)))] := by
    unfold toggleSel objSet
    rw [if_neg (by simp [hcp])]
  have hlen1 : (toggleSel initSel p).length = 2 := by
    rw [ht1]
    simp [initSel]
  have hc2 : containsKey (toggleSel initSel p) p = true := containsKey_objSet_self _ _ _
  have hlen2 : (toggleSel (toggleSel initSel p) p).length = 2 := by
    rw [length_toggle_of_contains _ _ hc2]
    exact hlen1
  have e1 : lookupJs (toggleSel initSel p) p = some (JsVal.bool true) := by
    have h1 : lookupJs (toggleSel initSel p) p
        = some (JsVal.bool (!truthy (lookupJs initSel p))) := lookupJs_objSet_self _ _ _
    rw [h1, hlp]
    rfl
  have e2 : lookupJs (toggleSel (toggleSel initSel p) p) p = some (JsVal.bool false) := by
    have h2 : lookupJs (toggleSel (toggleSel initSel p) p) p
        = some (JsVal.bool (!truthy (lookupJs (toggleSel initSel p) p))) :=
      lookupJs_objSet_self _ _ _
    rw [h2, e1]
    rfl
  have hcapn : capOk n = true := by
    unfold capOk
    rw [decide_eq_false (by omega : ¬n > maxPanels)]
    rfl
  refine ⟨containsKey_objSet s i _ j hj,
    containsKey_foldl_toggle l (toggleSel s i) i (containsKey_objSet_self s i _),
    e2, hlen2, ?_, ?_⟩
  · unfold panelIncluded selVisible
    rw [hcapn]
    simp [initSel]
  · unfold panelIncluded selVisible
    rw [hlen2, hq]
    rfl

/-- C10, witness: cycling panel P3 from the initial state hides panel P1. -/
theorem c10_toggle_persistence_witness :
    containsKey (toggleSel initSel pid2) keyColors = true ∧
    containsKey (List.foldl toggleSel (toggleSel initSel pid2) [pid4]) pid2 = true ∧
    lookupJs (toggleSel (toggleSel initSel pid3) pid3) pid3 = some (JsVal.bool false) ∧
    (toggleSel (toggleSel initSel pid3) pid3).length = 2 ∧
    panelIncluded initSel ⟨pid1, some []⟩ 0 = true ∧
    panelIncluded (toggleSel (toggleSel initSel pid3) pid3) ⟨pid1, some []⟩ 0 = false :=
  c10_toggle_persistence initSel pid2 keyColors pid3 [pid4] ⟨pid1, some []⟩ 0
    (by decide) (by decide) (by decide) (by decide)

/-- C3, counterexample: on a dataset of 202 panel records, the panels map
renders 201 records (indices 0 through 200), one more than
maxPanels = 200, because the cap test is the strict comparison
i > maxPanels. -/
theorem c3_counterexample :
    (includedPanels initSel manyPanels).length = 201 ∧ maxPanels = 200 := by
  constructor
  · unfold includedPanels manyPanels
    rw [includedPanelsAux_eq_filter_take initSel _ 0]
    rw [show maxPanels + 1 - 0 = 201 from rfl]
    rw [List.take_replicate]
    rw [show min 201 202 = 201 from rfl]
    rw [List.filter_eq_self.mpr
      (fun a ha => by rw [List.eq_of_mem_replicate ha]; rfl)]
    simp
  · rfl

/-- C3, amended: the panels map keeps at most maxPanels + 1 = 201 panel
records and at most maxPanels + 1 edge records (records at index greater
than maxPanels are silently dropped, preserving original order), and each
record emits at most maxPerPanel + 1 coordinates (here with the per-panel
cap as a parameter mpp), in original relative order; exceeding a cap
truncates and never errors. -/
theorem c3_amended (o : JsObj) (panels edges : List PanelRec) (mpp : ℕ)
    (sk : Option ℕ) (leds : List Triple) :
    (includedPanels o panels).length ≤ maxPanels + 1 ∧
    (includedEdges edges).length ≤ maxPanels + 1 ∧
    List.Sublist (includedPanels o panels) panels ∧
    List.Sublist (includedEdges edges) edges ∧
    (sampleLeds mpp sk leds).length ≤ mpp + 1 ∧
    List.Sublist (sampleLeds mpp sk leds) (leds.map transformLed) := by
  have hpe : includedPanels o panels
      = (panels.take (maxPanels + 1)).filter (fun r => selVisible o r.id) := by
    unfold includedPanels
    rw [includedPanelsAux_eq_filter_take o panels 0, Nat.sub_zero]
  have hee : includedEdges edges = edges.take (maxPanels + 1) := by
    unfold includedEdges
    rw [includedEdgesAux_eq_take edges 0, Nat.sub_zero]
  refine ⟨?_, ?_, ?_, ?_, ?_, ?_⟩
  · rw [hpe]
    have h1 := List.length_filter_le (fun r => selVisible o r.id)
      (panels.take (maxPanels + 1))
    have h2 := List.length_take (maxPanels + 1) panels
    omega
  · rw [hee, List.length_take]
    omega
  · rw [hpe]
    exact (List.filter_sublist _).trans (List.take_sublist _ _)
  · rw [hee]
    exact List.take_sublist _ _
  · have h := sampleLedsAux_length_le mpp sk leds 0
    unfold sampleLeds
    omega
  · exact sampleLedsAux_sublist mpp sk leds 0

/-- C4, counterexample: with the repository constants maxPerPanel = 3000
and skip interval 10, a record of 3001 coordinates yields 301 points
(indices 0, 10, ..., 3000), while the claimed formula
ceil(min(len, maxPerPanel)/k) gives 300. -/
theorem c4_counterexample :
    (sampleLeds maxPerPanel (some 10) (List.replicate 3001 ⟨0, 0, 0⟩)).length = 301 ∧
    (min (List.replicate 3001 (⟨0, 0, 0⟩ : Triple)).length maxPerPanel + 10 - 1) / 10
      = 300 := by
  constructor
  · rw [sampleLeds_length_formula maxPerPanel 10 _ (by norm_num)]
    rw [List.length_replicate]
    decide
  · rw [List.length_replicate]
    decide

/-- C4, amended: with skip interval k ≥ 1 a record of len coordinates
yields exactly ceil(min(len, mpp + 1)/k) points (the cap admits indices 0
through mpp, i.e. mpp + 1 coordinates, not mpp), in original relative
order; with the skip disabled, all coordinates up to the cap (again
mpp + 1 of them) are kept. -/
theorem c4_amended (mpp k : ℕ) (leds : List Triple) (hk : 0 < k) :
    (sampleLeds mpp (some k) leds).length = (min leds.length (mpp + 1) + k - 1) / k ∧
    List.Sublist (sampleLeds mpp (some k) leds) (leds.map transformLed) ∧
    sampleLeds mpp none leds = (leds.take (mpp + 1)).map transformLed := by
  refine ⟨sampleLeds_length_formula mpp k leds hk,
    sampleLedsAux_sublist mpp (some k) leds 0, ?_⟩
  unfold sampleLeds
  rw [sampleLedsAux_none_eq mpp leds 0, Nat.sub_zero]

/-- C4, witness of the amended theorem at mpp = 1, k = 2 on the three-led
list. -/
theorem c4_amended_witness :
    (sampleLeds 1 (some 2) leds5).length = (min leds5.length (1 + 1) + 2 - 1) / 2 ∧
    List.Sublist (sampleLeds 1 (some 2) leds5) (leds5.map transformLed) ∧
    sampleLeds 1 none leds5 = (leds5.take (1 + 1)).map transformLed :=
  c4_amended 1 2 leds5 (by norm_num)

/-- C5, counterexample: sampling the P1 dataset with per-panel cap 2 and
skip interval 1 yields 3 points, not 2: the cap test i > 2 admits indices
0, 1 and 2, so the transformed image of the third coordinate [2,2,2] is
also emitted. -/
theorem c5_counterexample :
    (sampleLeds 2 (some 1) leds5).length = 3 ∧
    transformLed ⟨2, 2, 2⟩ ∈ sampleLeds 2 (some 1) leds5 := by
  constructor
  · simp [sampleLeds, sampleLedsAux, skipCheck, leds5]
  · simp [sampleLeds, sampleLedsAux, skipCheck, leds5]

/-- C5, amended: the end-to-end render of the dataset with panel P1 and
leds [0,0,0], [1,1,1], [2,2,2] under caps mpp = 2, skip = 1 produces
exactly the three transformed points (0.7, 0, 5), (-0.8, 1.5, 3.5) and
(-2.3, 3, 2) for P1 and no edge points. -/
theorem c5_amended :
    renderScene 2 (some 1) initSel ds5 = some ([(pid1, pts5)], []) := by
  simp [renderScene, includedPanels, includedPanelsAux, includedEdges, includedEdgesAux,
    panelIncluded, selVisible, capOk, initSel, ds5, leds5, samplePanelRec, sampleLeds,
    sampleLedsAux, skipCheck, transformLed, optMapList, pts5, pid1, lookupJs, truthy,
    normalScale, maxPanels, keyColors]
  norm_num

/-- C6, counterexample: rendering a dataset whose single panel record lacks
its leds array aborts (the map over the missing array throws), rather than
skipping the record and producing the empty output. -/
theorem c6_counterexample :
    renderScene maxPerPanel skipLeds initSel ds6 = none ∧
    renderScene maxPerPanel skipLeds initSel ds6 ≠ some ([], []) := by
  have h : renderScene maxPerPanel skipLeds initSel ds6 = none := by decide
  refine ⟨h, ?_⟩
  rw [h]
  simp

/-- C6, amended: a record lacking its leds array that is included by the
selection filter and the cap makes the whole render fail (the thrown
TypeError is fatal, the record is not skipped); moreover the maxPanels cap
is purely positional: records beyond index maxPanels contribute nothing,
and every earlier record occupies its index slot whether or not it is
rendered. -/
theorem c6_amended (mpp : ℕ) (sk : Option ℕ) (o : JsObj) (ds : Dataset)
    (r : PanelRec) (h1 : r ∈ includedPanels o ds.panels) (h2 : r.leds = none) :
    renderScene mpp sk o ds = none ∧
    includedPanels o ds.panels = includedPanels o (ds.panels.take (maxPanels + 1)) := by
  constructor
  · have hf : (fun rec0 => (samplePanelRec mpp sk rec0).map (fun pts => (rec0.id, pts))) r
        = none := by
      simp [samplePanelRec, h2]
    have hnone := optMapList_eq_none
      (fun rec0 => (samplePanelRec mpp sk rec0).map (fun pts => (rec0.id, pts)))
      (includedPanels o ds.panels) r h1 hf
    unfold renderScene
    rw [hnone]
  · unfold includedPanels
    rw [includedPanelsAux_eq_filter_take o ds.panels 0,
      includedPanelsAux_eq_filter_take o (ds.panels.take (maxPanels + 1)) 0,
      Nat.sub_zero, List.take_take]
    rw [show min (maxPanels + 1) (maxPanels + 1) = maxPanels + 1 from by omega]

/-- C6, witness of the amended theorem on the concrete malformed dataset. -/
theorem c6_amended_witness :
    renderScene maxPerPanel skipLeds initSel ds6 = none ∧
    includedPanels initSel ds6.panels
      = includedPanels initSel (ds6.panels.take (maxPanels + 1)) :=
  c6_amended maxPerPanel skipLeds initSel ds6 ⟨pid1, none⟩ (by decide) rfl

end TEStudio
